import Mathlib

/-!
Shallow embedding of the DDP-24 emulator core
(`src/src/ddp24.c`, `src/include/ddp24.h`).

Machine words are modelled as `Nat` with explicit masking; signed
sign-magnitude values as `Int`.  The C function `ddp24_step` recurses
through the `OP_XEC` case with no bound, so its embedding takes a fuel
argument and returns `none` when the fuel is exhausted: `none` models a
run of the C recursion that has not terminated within the given depth.
The `fprintf` diagnostic in the default arm has no effect on machine
state and is not modelled.
-/

set_option maxHeartbeats 1000000
set_option maxRecDepth 2000

/-- 24-bit mask (`WORD_MASK` in `ddp24.h`). -/
def WORD_MASK : Nat := 0xFFFFFF

/-- Bit 23 is the sign (`SIGN_BIT`). -/
def SIGN_BIT : Nat := 0x800000

/-- Bits 0..22 are the magnitude (`MAGNITUDE_MASK`). -/
def MAGNITUDE_MASK : Nat := 0x7FFFFF

/-- 15-bit address mask (`ADDR_MASK`). -/
def ADDR_MASK : Nat := 0x7FFF

/-- Memory size: 32K words (`MEM_SIZE`). -/
def MEM_SIZE : Nat := 32768

/-- Indirect flag: bit 17 (`INDIRECT_BIT`). -/
def INDIRECT_BIT : Nat := 0x20000

/-- Opcodes implemented by the `ddp24_step` switch (octal values from `ddp24.h`). -/
def OP_HLT : Nat := 0o00
def OP_XEC : Nat := 0o02
def OP_STB : Nat := 0o03
def OP_STA : Nat := 0o05
def OP_ADD : Nat := 0o10
def OP_SUB : Nat := 0o11
def OP_SKG : Nat := 0o12
def OP_SKN : Nat := 0o13
def OP_ANA : Nat := 0o15
def OP_ORA : Nat := 0o16
def OP_ERA : Nat := 0o17
def OP_LDB : Nat := 0o23
def OP_LDA : Nat := 0o24
def OP_JSL : Nat := 0o27
def OP_MPY : Nat := 0o34
def OP_DIV : Nat := 0o35
def OP_ARS : Nat := 0o40
def OP_ALS : Nat := 0o41
def OP_TAB : Nat := 0o55
def OP_LDX : Nat := 0o56
def OP_IAB : Nat := 0o57
def OP_SIX : Nat := 0o66
def OP_JPL : Nat := 0o70
def OP_JZE : Nat := 0o71
def OP_JMI : Nat := 0o72
def OP_JNZ : Nat := 0o73
def OP_JMP : Nat := 0o74
def OP_NOP : Nat := 0o77

/-- `to_signed` from `ddp24.c`: sign-magnitude word to signed integer. -/
def to_signed (w : Nat) : Int :=
  let w := w &&& WORD_MASK
  if w &&& SIGN_BIT != 0 then -((w &&& MAGNITUDE_MASK : Nat) : Int)
  else ((w &&& MAGNITUDE_MASK : Nat) : Int)

/-- `from_signed` from `ddp24.c`: signed integer to sign-magnitude word. -/
def from_signed (v : Int) : Nat :=
  if v < 0 then SIGN_BIT ||| ((-v).toNat &&& MAGNITUDE_MASK)
  else v.toNat &&& MAGNITUDE_MASK

/-- CPU state (`ddp24_t` in `ddp24.h`).  `X` models the four-entry index
register array `X[4]` (only indices 0..3 are ever accessed); `memory`
models the 32768-word array (only indices below `MEM_SIZE` are ever
accessed, every access masks the address). -/
structure ddp24_t where
  A : Nat
  B : Nat
  X : Nat → Nat
  PC : Nat
  memory : Nat → Nat
  overflow : Bool
  halted : Bool
  interrupt_enabled : Bool
  cycles : Nat

/-- `ddp24_init`: freshly constructed processor, all state zero. -/
def ddp24_init : ddp24_t :=
  { A := 0, B := 0, X := fun _ => 0, PC := 0, memory := fun _ => 0,
    overflow := false, halted := false, interrupt_enabled := false, cycles := 0 }

/-- `ddp24_reset`: clear registers and flags, preserve memory. -/
def ddp24_reset (cpu : ddp24_t) : ddp24_t :=
  { cpu with
    A := 0
    B := 0
    X := Function.update (Function.update (Function.update
           (Function.update cpu.X 0 0) 1 0) 2 0) 3 0
    PC := 0
    halted := false
    overflow := false
    interrupt_enabled := false
    cycles := 0 }

/-- `ddp24_read`: memory read, address masked to 15 bits, result to 24 bits. -/
def ddp24_read (cpu : ddp24_t) (addr : Nat) : Nat :=
  cpu.memory (addr &&& (MEM_SIZE - 1)) &&& WORD_MASK

/-- `ddp24_write`: memory write, address masked to 15 bits, value to 24 bits. -/
def ddp24_write (cpu : ddp24_t) (addr value : Nat) : ddp24_t :=
  { cpu with
    memory := Function.update cpu.memory (addr &&& (MEM_SIZE - 1)) (value &&& WORD_MASK) }

/-- Instruction decode helpers from `ddp24.h`. -/
def decode_opcode (instr : Nat) : Nat := (instr >>> 18) &&& 0x3F

def decode_indirect (instr : Nat) : Bool := instr &&& INDIRECT_BIT != 0

def decode_index (instr : Nat) : Nat := (instr >>> 15) &&& 0x3

def decode_address (instr : Nat) : Nat := instr &&& ADDR_MASK

/-- `effective_address` from `ddp24.c`: indexed addressing then one level
of indirection. -/
def effective_address (cpu : ddp24_t) (instr : Nat) : Nat :=
  let addr := decode_address instr
  let idx := decode_index instr
  let addr := if idx > 0 then (addr + cpu.X idx) &&& ADDR_MASK else addr
  if decode_indirect instr then ddp24_read cpu addr &&& ADDR_MASK else addr

/-- The epilogue of one `ddp24_step` activation (`cpu->cycles += cycles;
return cycles;` in `ddp24.c`): add the cycle cost of the executed
instruction to the 64-bit cycle counter.  `none` (a non-terminating XEC
recursion) propagates. -/
def step_finish : Option (ddp24_t × Nat) → Option (ddp24_t × Nat)
  | none => none
  | some (cpu2, cyc) =>
    some ({ cpu2 with cycles := (cpu2.cycles + cyc) % 0x10000000000000000 }, cyc)

/-- One activation of `ddp24_step` from `ddp24.c`: execute one
instruction, returning the updated state and the cycle count that the C
function returns.  `recur` stands for the recursive `ddp24_step` call in
the `OP_XEC` arm; a result of `none` propagates a non-terminating
recursion.  The
program-counter decrement in the HLT arm and the left shift in the ALS
arm mirror the C `uint32_t` wrap-around; the quotient and remainder in
the DIV arm mirror the C truncation to `uint32_t`; the cycle counter is
a C `uint64_t` and wraps accordingly. -/
def ddp24_step_body (recur : ddp24_t → Option (ddp24_t × Nat)) (cpu : ddp24_t) :
    Option (ddp24_t × Nat) :=
    if cpu.halted then some (cpu, 0)
    else
      let instr := ddp24_read cpu cpu.PC
      let cpu1 : ddp24_t := { cpu with PC := (cpu.PC + 1) &&& ADDR_MASK }
      let op := decode_opcode instr
      let ea := effective_address cpu1 instr
      let res : Option (ddp24_t × Nat) :=
        if op = OP_HLT then
          some ({ cpu1 with
                  halted := true
                  PC := ((cpu1.PC + 0xFFFFFFFF) % 0x100000000) &&& ADDR_MASK }, 5)
        else if op = OP_NOP then
          some (cpu1, 5)
        else if op = OP_LDA then
          some ({ cpu1 with A := ddp24_read cpu1 ea }, 10)
        else if op = OP_LDB then
          some ({ cpu1 with B := ddp24_read cpu1 ea }, 10)
        else if op = OP_STA then
          some (ddp24_write cpu1 ea cpu1.A, 10)
        else if op = OP_STB then
          some (ddp24_write cpu1 ea cpu1.B, 10)
        else if op = OP_ADD then
          let operand := ddp24_read cpu1 ea
          let result := to_signed cpu1.A + to_signed operand
          some ({ cpu1 with
                  overflow := if result > 0x7FFFFF ∨ result < -0x7FFFFF then true
                              else cpu1.overflow
                  A := from_signed result }, 10)
        else if op = OP_SUB then
          let operand := ddp24_read cpu1 ea
          let result := to_signed cpu1.A - to_signed operand
          some ({ cpu1 with
                  overflow := if result > 0x7FFFFF ∨ result < -0x7FFFFF then true
                              else cpu1.overflow
                  A := from_signed result }, 10)
        else if op = OP_MPY then
          let operand := ddp24_read cpu1 ea
          let b_mag := cpu1.B &&& MAGNITUDE_MASK
          let y_mag := operand &&& MAGNITUDE_MASK
          let b_neg : Bool := cpu1.B &&& SIGN_BIT != 0
          let y_neg : Bool := operand &&& SIGN_BIT != 0
          let result_neg : Bool := b_neg != y_neg
          let product := b_mag * y_mag
          let a_mag := (product >>> 23) &&& MAGNITUDE_MASK
          let new_b_mag := product &&& MAGNITUDE_MASK
          some ({ cpu1 with
                  A := if result_neg && (a_mag != 0 || new_b_mag != 0) then
                         SIGN_BIT ||| a_mag else a_mag
                  B := if result_neg && (a_mag != 0 || new_b_mag != 0) then
                         SIGN_BIT ||| new_b_mag else new_b_mag }, 28)
        else if op = OP_DIV then
          let operand := ddp24_read cpu1 ea
          let divisor_mag := operand &&& MAGNITUDE_MASK
          let a_mag := cpu1.A &&& MAGNITUDE_MASK
          let dividend_neg : Bool := cpu1.A &&& SIGN_BIT != 0
          let divisor_neg : Bool := operand &&& SIGN_BIT != 0
          if a_mag ≥ divisor_mag then
            some ({ cpu1 with overflow := true }, 44)
          else
            let dividend := ((cpu1.A &&& MAGNITUDE_MASK) <<< 23) ||| (cpu1.B &&& MAGNITUDE_MASK)
            let quotient := (dividend / divisor_mag) % 0x100000000
            let remainder := (dividend % divisor_mag) % 0x100000000
            let quotient_neg : Bool := dividend_neg != divisor_neg
            some ({ cpu1 with
                    B := if quotient_neg && (quotient != 0) then SIGN_BIT ||| quotient
                         else quotient
                    A := if dividend_neg && (remainder != 0) then SIGN_BIT ||| remainder
                         else remainder }, 44)
        else if op = OP_ANA then
          some ({ cpu1 with A := (cpu1.A &&& ddp24_read cpu1 ea) &&& WORD_MASK }, 10)
        else if op = OP_ORA then
          some ({ cpu1 with A := (cpu1.A ||| ddp24_read cpu1 ea) &&& WORD_MASK }, 10)
        else if op = OP_ERA then
          some ({ cpu1 with A := (cpu1.A ^^^ ddp24_read cpu1 ea) &&& WORD_MASK }, 10)
        else if op = OP_JMP then
          some ({ cpu1 with PC := ea }, 5)
        else if op = OP_JPL then
          some (if cpu1.A &&& SIGN_BIT = 0 ∧ cpu1.A &&& MAGNITUDE_MASK ≠ 0 then
                  { cpu1 with PC := ea } else cpu1, 6)
        else if op = OP_JMI then
          some (if cpu1.A &&& SIGN_BIT ≠ 0 then { cpu1 with PC := ea } else cpu1, 6)
        else if op = OP_JZE then
          some (if cpu1.A &&& MAGNITUDE_MASK = 0 then { cpu1 with PC := ea } else cpu1, 6)
        else if op = OP_JNZ then
          some (if cpu1.A &&& MAGNITUDE_MASK ≠ 0 then { cpu1 with PC := ea } else cpu1, 6)
        else if op = OP_JSL then
          some ({ ddp24_write cpu1 ea cpu1.PC with PC := (ea + 1) &&& ADDR_MASK }, 10)
        else if op = OP_SKG then
          let operand := ddp24_read cpu1 ea
          some (if to_signed cpu1.A > to_signed operand then
                  { cpu1 with PC := (cpu1.PC + 1) &&& ADDR_MASK } else cpu1, 10)
        else if op = OP_SKN then
          let operand := ddp24_read cpu1 ea
          some (if cpu1.A ≠ operand then
                  { cpu1 with PC := (cpu1.PC + 1) &&& ADDR_MASK } else cpu1, 10)
        else if op = OP_TAB then
          some ({ cpu1 with B := cpu1.A }, 5)
        else if op = OP_IAB then
          some ({ cpu1 with A := cpu1.B, B := cpu1.A }, 10)
        else if op = OP_LDX then
          let idx := decode_index instr
          some (if idx > 0 then
                  { cpu1 with X := Function.update cpu1.X idx (ddp24_read cpu1 ea &&& ADDR_MASK) }
                else cpu1, 5)
        else if op = OP_SIX then
          let idx := decode_index instr
          some (ddp24_write cpu1 ea (cpu1.X idx), 10)
        else if op = OP_ARS then
          let count := ea &&& 0x1F
          some ({ cpu1 with
                  A := (cpu1.A &&& SIGN_BIT) ||| ((cpu1.A &&& MAGNITUDE_MASK) >>> count) },
                5 + (ea &&& 0x1F))
        else if op = OP_ALS then
          let count := ea &&& 0x1F
          some ({ cpu1 with
                  A := (cpu1.A &&& SIGN_BIT) |||
                       ((((cpu1.A &&& MAGNITUDE_MASK) <<< count) % 0x100000000) &&& MAGNITUDE_MASK) },
                5 + (ea &&& 0x1F))
        else if op = OP_XEC then
          match recur { cpu1 with PC := (ea + 1) &&& ADDR_MASK } with
          | none => none
          | some (cpu2, c) => some (cpu2, 5 + c)
        else
          some ({ cpu1 with halted := true }, 5)
      step_finish res

/-- `ddp24_step` itself: the fuel argument counts the available XEC
recursion depth (the C call stack); each activation is `ddp24_step_body`
with the recursive call as `recur`. -/
def ddp24_step : Nat → ddp24_t → Option (ddp24_t × Nat)
  | 0 => ddp24_step_body (fun _ => none)
  | fuel + 1 => ddp24_step_body (ddp24_step fuel)

/-! ### The machine-width invariant (claim C1) -/

/-- The machine-width invariant: accumulators and memory words fit in 24
bits, PC and the writable index registers in 15 bits, and `X[0]` is the
hardwired zero. -/
def MachInv (s : ddp24_t) : Prop :=
  s.A < 16777216 ∧ s.B < 16777216 ∧ (∀ i, i < MEM_SIZE → s.memory i < 16777216) ∧
  s.PC < 32768 ∧ s.X 0 = 0 ∧ s.X 1 < 32768 ∧ s.X 2 < 32768 ∧ s.X 3 < 32768

/-- States reachable through the public lifecycle: construction, reset,
memory write, and any terminating step (`ddp24_read` does not change the
state, so it contributes no constructor). -/
inductive ddp24_reachable : ddp24_t → Prop
  | init : ddp24_reachable ddp24_init
  | reset (s : ddp24_t) : ddp24_reachable s → ddp24_reachable (ddp24_reset s)
  | write (s : ddp24_t) (a v : Nat) : ddp24_reachable s → ddp24_reachable (ddp24_write s a v)
  | step (s s' : ddp24_t) (fuel c : Nat) :
      ddp24_reachable s → ddp24_step fuel s = some (s', c) → ddp24_reachable s'

/-- The opcodes handled by the `ddp24_step` switch; every other decoded
opcode falls into the `default` arm. -/
def implemented_opcodes : List Nat :=
  [OP_HLT, OP_XEC, OP_STB, OP_STA, OP_ADD, OP_SUB, OP_SKG, OP_SKN, OP_ANA, OP_ORA,
   OP_ERA, OP_LDB, OP_LDA, OP_JSL, OP_MPY, OP_DIV, OP_ARS, OP_ALS, OP_TAB, OP_LDX,
   OP_IAB, OP_SIX, OP_JPL, OP_JZE, OP_JMI, OP_JNZ, OP_JMP, OP_NOP]

/-- A concrete state whose word 0 decodes to the unimplemented opcode
`0o01`. -/
def sUnimpl : ddp24_t :=
  { ddp24_init with memory := Function.update (fun _ => 0) 0 (1 <<< 18) }

/-! ### Step preamble projections, used to state per-opcode claims -/

/-- The instruction word fetched by a step from state `s`. -/
def fetched (s : ddp24_t) : Nat := ddp24_read s s.PC

/-- The state after the fetch increment of the PC. -/
def step_cpu1 (s : ddp24_t) : ddp24_t := { s with PC := (s.PC + 1) &&& ADDR_MASK }

/-- The effective address a step computes from state `s`. -/
def step_ea (s : ddp24_t) : Nat := effective_address (step_cpu1 s) (fetched s)

/-- The memory operand a step reads from state `s`. -/
def step_operand (s : ddp24_t) : Nat := ddp24_read (step_cpu1 s) (step_ea s)

/-- A concrete improper-divide state: word 0 is `DIV 0`, so the divisor
is the DIV word itself (magnitude `0x740000`), and `A = 0x7FFFFF` has at
least that magnitude. -/
def sDivImp : ddp24_t :=
  { ddp24_init with
    A := 8388607
    memory := Function.update (fun _ => 0) 0 (OP_DIV <<< 18) }

/-- A concrete multiply state: `B = -5` (sign-magnitude `0x800005`) and
word 0 is `MPY 0`, so the operand is the MPY word itself, with magnitude
`0x700000`. -/
def sMpy : ddp24_t :=
  { ddp24_init with
    B := 0x800005
    memory := Function.update (fun _ => 0) 0 (OP_MPY <<< 18) }

/-- A concrete XEC state: word 0 is `XEC 10`, word 10 is `HLT` (zero),
word 11 is `NOP`. -/
def sXEC : ddp24_t :=
  { ddp24_init with
    memory := Function.update (Function.update (fun _ => 0) 0 (OP_XEC <<< 18 ||| 10))
                11 (OP_NOP <<< 18) }

/-- A self-referential XEC chain: word 5 is `XEC 4`, so the XEC at
address 5 re-dispatches at address `4 + 1 = 5`, fetching itself. -/
def sLoop : ddp24_t :=
  { ddp24_init with
    PC := 5
    memory := Function.update (fun _ => 0) 5 (OP_XEC <<< 18 ||| 4) }

/-- A concrete XEC state for cycle accounting: word 0 is `XEC 20`,
word 21 is `NOP`, and the cycle counter starts at 0. -/
def sCyc : ddp24_t :=
  { ddp24_init with
    memory := Function.update (Function.update (fun _ => 0) 0 (OP_XEC <<< 18 ||| 20))
                21 (OP_NOP <<< 18) }

/-! ### Arithmetic helper lemmas about the bit masks -/

theorem and_addr_mask (x : Nat) : x &&& ADDR_MASK = x % 32768 := by
  have h := Nat.and_pow_two_sub_one_eq_mod x 15
  norm_num at h
  simpa [ADDR_MASK] using h

theorem and_word_mask (x : Nat) : x &&& WORD_MASK = x % 16777216 := by
  have h := Nat.and_pow_two_sub_one_eq_mod x 24
  norm_num at h
  simpa [WORD_MASK] using h

theorem and_mag_mask (x : Nat) : x &&& MAGNITUDE_MASK = x % 8388608 := by
  have h := Nat.and_pow_two_sub_one_eq_mod x 23
  norm_num at h
  simpa [MAGNITUDE_MASK] using h

theorem and_word_mask_lt (x : Nat) : x &&& WORD_MASK < 16777216 := by
  rw [and_word_mask]; exact Nat.mod_lt _ (by norm_num)

theorem and_addr_mask_lt (x : Nat) : x &&& ADDR_MASK < 32768 := by
  rw [and_addr_mask]; exact Nat.mod_lt _ (by norm_num)

theorem and_mag_mask_lt (x : Nat) : x &&& MAGNITUDE_MASK < 8388608 := by
  rw [and_mag_mask]; exact Nat.mod_lt _ (by norm_num)

theorem sign_or_mag_lt {x : Nat} (h : x < 8388608) : SIGN_BIT ||| x < 16777216 := by
  have := Nat.or_lt_two_pow (x := SIGN_BIT) (y := x) (n := 24)
    (by norm_num [SIGN_BIT]) (by omega)
  simpa using this

/-! ### Basic sanity theorems about the embedded operations -/

/-- Unfolding equations for `ddp24_step`. -/
theorem ddp24_step_zero (s : ddp24_t) :
    ddp24_step 0 s = ddp24_step_body (fun _ => none) s := rfl

theorem ddp24_step_succ (fuel : Nat) (s : ddp24_t) :
    ddp24_step (fuel + 1) s = ddp24_step_body (ddp24_step fuel) s := rfl

/-- A halted-state activation returns immediately. -/
theorem ddp24_step_body_halted (recur : ddp24_t → Option (ddp24_t × Nat))
    (s : ddp24_t) (h : s.halted = true) :
    ddp24_step_body recur s = some (s, 0) := by
  rw [ddp24_step_body, if_pos h]

theorem ddp24_step_halted (fuel : Nat) (s : ddp24_t) (h : s.halted = true) :
    ddp24_step fuel s = some (s, 0) := by
  cases fuel with
  | zero => exact ddp24_step_body_halted _ _ h
  | succ f => exact ddp24_step_body_halted _ _ h

theorem and_sign_bit_eq_testBit (x : Nat) : (x &&& SIGN_BIT != 0) = x.testBit 23 := by
  rw [SIGN_BIT, show (0x800000 : Nat) = 2 ^ 23 by norm_num, Nat.and_two_pow]
  cases x.testBit 23 <;> simp

theorem sign_bit_or_eq_add {b : Nat} (h : b < 8388608) : SIGN_BIT ||| b = 8388608 + b := by
  have := Nat.mul_add_lt_is_or (b := b) (i := 23) (by omega) 1
  rw [SIGN_BIT]
  norm_num at this ⊢
  omega

/-- The effective address is always a 15-bit value. -/
theorem effective_address_lt (cpu : ddp24_t) (instr : Nat) :
    effective_address cpu instr < 32768 := by
  rw [effective_address]
  split
  · exact and_addr_mask_lt _
  · split
    · exact and_addr_mask_lt _
    · rw [decode_address]; exact and_addr_mask_lt _

/-- A memory read is always a 24-bit value. -/
theorem ddp24_read_lt (cpu : ddp24_t) (addr : Nat) : ddp24_read cpu addr < 16777216 := by
  rw [ddp24_read]; exact and_word_mask_lt _

/-- `from_signed` always produces a 24-bit value. -/
theorem from_signed_lt (v : Int) : from_signed v < 16777216 := by
  rw [from_signed]
  split
  · exact sign_or_mag_lt (and_mag_mask_lt _)
  · have := and_mag_mask_lt (v.toNat)
    omega

theorem MachInv_init : MachInv ddp24_init := by
  refine ⟨by norm_num [ddp24_init], by norm_num [ddp24_init], ?_, by norm_num [ddp24_init],
    rfl, by norm_num [ddp24_init], by norm_num [ddp24_init], by norm_num [ddp24_init]⟩
  intro i _
  norm_num [ddp24_init]

theorem MachInv_reset (s : ddp24_t) (h : MachInv s) : MachInv (ddp24_reset s) := by
  obtain ⟨_, _, hM, _, _, _, _, _⟩ := h
  refine ⟨by norm_num [ddp24_reset], by norm_num [ddp24_reset], ?_, by norm_num [ddp24_reset],
    ?_, ?_, ?_, ?_⟩ <;>
    simp [ddp24_reset, Function.update] <;> first | exact hM | rfl

theorem MachInv_write (s : ddp24_t) (a v : Nat) (h : MachInv s) :
    MachInv (ddp24_write s a v) := by
  obtain ⟨hA, hB, hM, hPC, hX0, hX1, hX2, hX3⟩ := h
  refine ⟨hA, hB, ?_, hPC, hX0, hX1, hX2, hX3⟩
  intro i hi
  rw [ddp24_write]
  by_cases hieq : i = a &&& (MEM_SIZE - 1)
  · simp [hieq, Function.update, and_word_mask_lt]
  · simp [Function.update, hieq]
    exact hM i hi

/-! ### Dispatch lemmas for individual opcodes -/

/-- `OP_HLT` activation: latch halt, undo the fetch increment, 5 cycles. -/
theorem ddp24_step_body_hlt (recur : ddp24_t → Option (ddp24_t × Nat)) (s : ddp24_t)
    (h0 : s.halted = false)
    (h1 : decode_opcode (ddp24_read s s.PC) = OP_HLT)
    (h2 : s.PC < 32768) :
    ddp24_step_body recur s =
      some ({ s with
              halted := true
              cycles := (s.cycles + 5) % 0x10000000000000000 }, 5) := by
  rw [ddp24_step_body]
  simp only [h0, Bool.false_eq_true, if_false, h1, eq_self_iff_true, if_true,
    OP_HLT, OP_NOP, OP_LDA, OP_LDB, OP_STA, OP_STB, OP_ADD, OP_SUB, OP_MPY, OP_DIV,
    OP_ANA, OP_ORA, OP_ERA, OP_JMP, OP_JPL, OP_JMI, OP_JZE, OP_JNZ, OP_JSL, OP_SKG,
    OP_SKN, OP_TAB, OP_IAB, OP_LDX, OP_SIX, OP_ARS, OP_ALS, OP_XEC, step_finish]
  have hpc : ((s.PC + 1 &&& ADDR_MASK) + 4294967295) % 4294967296 &&& ADDR_MASK = s.PC := by
    rw [and_addr_mask, and_addr_mask]
    omega
  rw [hpc]

/-- Claim C5: for every non-halted state whose fetched instruction
decodes to `OP_HLT`, the step latches `halted`, leaves PC at the address
the HLT word was fetched from (undoing the fetch increment), changes
nothing else, and costs 5 cycles. -/
theorem hlt_latches_halt_and_restores_pc (fuel : Nat) (s : ddp24_t)
    (h0 : s.halted = false)
    (h1 : decode_opcode (ddp24_read s s.PC) = OP_HLT)
    (h2 : s.PC < 32768) :
    ddp24_step fuel s =
      some ({ s with
              halted := true
              cycles := (s.cycles + 5) % 0x10000000000000000 }, 5) := by
  cases fuel with
  | zero => exact ddp24_step_body_hlt _ s h0 h1 h2
  | succ f => exact ddp24_step_body_hlt _ s h0 h1 h2

/-- Witness for C5: stepping the fresh processor (memory word 0 is 0,
which decodes to HLT) halts with PC still 0 and 5 cycles. -/
theorem hlt_latches_halt_and_restores_pc_witness :
    ddp24_step 0 ddp24_init =
      some ({ ddp24_init with
              halted := true
              cycles := 5 }, 5) :=
  hlt_latches_halt_and_restores_pc 0 ddp24_init rfl rfl (by norm_num [ddp24_init])

/-- Claim C6: a step taken in a halted state is a silent no-op: it
returns 0 cycles and the state — every register, memory word, flag and
the cycle counter — is unchanged. -/
theorem halted_step_is_silent_noop (fuel : Nat) (s : ddp24_t) (h : s.halted = true) :
    ddp24_step fuel s = some (s, 0) := by
  cases fuel with
  | zero => exact ddp24_step_body_halted _ _ h
  | succ f => exact ddp24_step_body_halted _ _ h

/-- Witness for C6 at a concrete halted state. -/
theorem halted_step_is_silent_noop_witness :
    ddp24_step 3 { ddp24_init with halted := true } =
      some ({ ddp24_init with halted := true }, 0) :=
  halted_step_is_silent_noop 3 { ddp24_init with halted := true } rfl

/-! ### Unimplemented opcodes (claims C9, C10) -/

/-- `default` activation: latch halt, keep the incremented PC, 5 cycles. -/
theorem ddp24_step_body_unimpl (recur : ddp24_t → Option (ddp24_t × Nat)) (s : ddp24_t)
    (h0 : s.halted = false)
    (h1 : decode_opcode (ddp24_read s s.PC) ∉ implemented_opcodes) :
    ddp24_step_body recur s =
      some ({ s with
              PC := (s.PC + 1) &&& ADDR_MASK
              halted := true
              cycles := (s.cycles + 5) % 0x10000000000000000 }, 5) := by
  simp only [implemented_opcodes, List.mem_cons, List.not_mem_nil, or_false, not_or] at h1
  obtain ⟨nHLT, nXEC, nSTB, nSTA, nADD, nSUB, nSKG, nSKN, nANA, nORA, nERA, nLDB, nLDA,
    nJSL, nMPY, nDIV, nARS, nALS, nTAB, nLDX, nIAB, nSIX, nJPL, nJZE, nJMI, nJNZ,
    nJMP, nNOP⟩ := h1
  rw [ddp24_step_body]
  simp only [h0, Bool.false_eq_true, if_false, nHLT, nXEC, nSTB, nSTA, nADD, nSUB, nSKG,
    nSKN, nANA, nORA, nERA, nLDB, nLDA, nJSL, nMPY, nDIV, nARS, nALS, nTAB, nLDX, nIAB,
    nSIX, nJPL, nJZE, nJMI, nJNZ, nJMP, nNOP, step_finish]

theorem ddp24_step_unimpl (fuel : Nat) (s : ddp24_t)
    (h0 : s.halted = false)
    (h1 : decode_opcode (ddp24_read s s.PC) ∉ implemented_opcodes) :
    ddp24_step fuel s =
      some ({ s with
              PC := (s.PC + 1) &&& ADDR_MASK
              halted := true
              cycles := (s.cycles + 5) % 0x10000000000000000 }, 5) := by
  cases fuel with
  | zero => exact ddp24_step_body_unimpl _ s h0 h1
  | succ f => exact ddp24_step_body_unimpl _ s h0 h1

/-- Claim C9: an instruction whose decoded opcode is outside the
implemented subset latches `halted` (it is a fatal fault, not a NOP —
a NOP leaves `halted` clear). -/
theorem unimplemented_opcode_faults (fuel : Nat) (s : ddp24_t)
    (h0 : s.halted = false)
    (h1 : decode_opcode (ddp24_read s s.PC) ∉ implemented_opcodes) :
    ∃ s', ddp24_step fuel s = some (s', 5) ∧ s'.halted = true := by
  refine ⟨_, ddp24_step_unimpl fuel s h0 h1, rfl⟩

/-- Witness for C9. -/
theorem unimplemented_opcode_faults_witness :
    ∃ s', ddp24_step 0 sUnimpl = some (s', 5) ∧ s'.halted = true :=
  unimplemented_opcode_faults 0 sUnimpl rfl (by decide)

/-- Claim C10: after a step that decodes an unimplemented opcode, PC is
the offending instruction's address plus one modulo 2^15 (the fetch
increment is kept, unlike HLT), and the step adds 5 to the cycle counter
and returns 5. -/
theorem unimplemented_opcode_pc_and_cycles (fuel : Nat) (s : ddp24_t)
    (h0 : s.halted = false)
    (h1 : decode_opcode (ddp24_read s s.PC) ∉ implemented_opcodes) :
    ∃ s', ddp24_step fuel s = some (s', 5) ∧ s'.PC = (s.PC + 1) % 32768 ∧
      s'.cycles = (s.cycles + 5) % 0x10000000000000000 := by
  refine ⟨_, ddp24_step_unimpl fuel s h0 h1, ?_, rfl⟩
  simp [and_addr_mask]

/-- Witness for C10. -/
theorem unimplemented_opcode_pc_and_cycles_witness :
    ∃ s', ddp24_step 0 sUnimpl = some (s', 5) ∧ s'.PC = (sUnimpl.PC + 1) % 32768 ∧
      s'.cycles = (sUnimpl.cycles + 5) % 0x10000000000000000 :=
  unimplemented_opcode_pc_and_cycles 0 sUnimpl rfl (by decide)

/-- `OP_DIV` improper activation: when the divisor magnitude does not
exceed the dividend-high magnitude, only `overflow` is latched. -/
theorem ddp24_step_body_div_improper (recur : ddp24_t → Option (ddp24_t × Nat)) (s : ddp24_t)
    (h0 : s.halted = false)
    (h1 : decode_opcode (fetched s) = OP_DIV)
    (h2 : step_operand s &&& MAGNITUDE_MASK ≤ s.A &&& MAGNITUDE_MASK) :
    ddp24_step_body recur s =
      some ({ s with
              PC := (s.PC + 1) &&& ADDR_MASK
              overflow := true
              cycles := (s.cycles + 44) % 0x10000000000000000 }, 44) := by
  rw [fetched] at h1
  rw [step_operand, step_ea, step_cpu1, fetched] at h2
  simp only [h0] at h2
  rw [ddp24_step_body]
  simp only [h0, Bool.false_eq_true, if_false, h1, eq_self_iff_true, if_true,
    Nat.reduceEqDiff,
    OP_HLT, OP_NOP, OP_LDA, OP_LDB, OP_STA, OP_STB, OP_ADD, OP_SUB, OP_MPY, OP_DIV,
    OP_ANA, OP_ORA, OP_ERA, OP_JMP, OP_JPL, OP_JMI, OP_JZE, OP_JNZ, OP_JSL, OP_SKG,
    OP_SKN, OP_TAB, OP_IAB, OP_LDX, OP_SIX, OP_ARS, OP_ALS, OP_XEC, ge_iff_le,
    step_finish]
  rw [if_pos h2]

/-- Claim C7: an improper divide — divisor magnitude ≤ dividend-high
magnitude, which includes every zero divisor — latches `overflow`,
leaves `A`, `B`, memory and `halted` unchanged, performs no division,
and costs 44 cycles. -/
theorem div_improper_is_atomic_nonfatal (fuel : Nat) (s : ddp24_t)
    (h0 : s.halted = false)
    (h1 : decode_opcode (fetched s) = OP_DIV)
    (h2 : step_operand s &&& MAGNITUDE_MASK ≤ s.A &&& MAGNITUDE_MASK) :
    ddp24_step fuel s =
      some ({ s with
              PC := (s.PC + 1) &&& ADDR_MASK
              overflow := true
              cycles := (s.cycles + 44) % 0x10000000000000000 }, 44) := by
  cases fuel with
  | zero => exact ddp24_step_body_div_improper _ s h0 h1 h2
  | succ f => exact ddp24_step_body_div_improper _ s h0 h1 h2

/-- Witness for C7. -/
theorem div_improper_is_atomic_nonfatal_witness :
    ddp24_step 0 sDivImp =
      some ({ sDivImp with
              PC := 1
              overflow := true
              cycles := 44 }, 44) :=
  div_improper_is_atomic_nonfatal 0 sDivImp rfl (by decide) (by decide)

theorem mpy_A_value (B y : Nat) :
    (if ((B &&& SIGN_BIT != 0) != (y &&& SIGN_BIT != 0)) &&
        ((((B &&& MAGNITUDE_MASK) * (y &&& MAGNITUDE_MASK)) >>> 23 &&& MAGNITUDE_MASK != 0) ||
         ((B &&& MAGNITUDE_MASK) * (y &&& MAGNITUDE_MASK) &&& MAGNITUDE_MASK != 0)) then
       SIGN_BIT ||| (((B &&& MAGNITUDE_MASK) * (y &&& MAGNITUDE_MASK)) >>> 23 &&& MAGNITUDE_MASK)
     else ((B &&& MAGNITUDE_MASK) * (y &&& MAGNITUDE_MASK)) >>> 23 &&& MAGNITUDE_MASK) =
    (if (B.testBit 23 ≠ y.testBit 23) ∧ (B % 8388608) * (y % 8388608) ≠ 0 then
       8388608 + (B % 8388608) * (y % 8388608) / 8388608
     else (B % 8388608) * (y % 8388608) / 8388608) := by
  rw [and_sign_bit_eq_testBit, and_sign_bit_eq_testBit, and_mag_mask, and_mag_mask,
    and_mag_mask, and_mag_mask, Nat.shiftRight_eq_div_pow]
  have hB : B % 8388608 < 8388608 := Nat.mod_lt _ (by norm_num)
  have hy : y % 8388608 < 8388608 := Nat.mod_lt _ (by norm_num)
  set p := (B % 8388608) * (y % 8388608) with hp
  have hplt : p < 70368744177664 := by
    calc p ≤ 8388607 * 8388607 := Nat.mul_le_mul (by omega) (by omega)
    _ < 70368744177664 := by norm_num
  have hdivlt : p / 2 ^ 23 < 8388608 := by
    norm_num
    omega
  have hdiv : p / 2 ^ 23 % 8388608 = p / 2 ^ 23 := Nat.mod_eq_of_lt hdivlt
  rw [hdiv]
  have hcond : (p / 2 ^ 23 ≠ 0 ∨ p % 8388608 ≠ 0) ↔ p ≠ 0 := by
    norm_num
    omega
  simp only [Bool.and_eq_true, Bool.or_eq_true, bne_iff_ne, ne_eq, hcond]
  norm_num
  split
  · rw [sign_bit_or_eq_add (show p / 8388608 < 8388608 by omega)]
  · rfl

theorem mpy_B_value (B y : Nat) :
    (if ((B &&& SIGN_BIT != 0) != (y &&& SIGN_BIT != 0)) &&
        ((((B &&& MAGNITUDE_MASK) * (y &&& MAGNITUDE_MASK)) >>> 23 &&& MAGNITUDE_MASK != 0) ||
         ((B &&& MAGNITUDE_MASK) * (y &&& MAGNITUDE_MASK) &&& MAGNITUDE_MASK != 0)) then
       SIGN_BIT ||| ((B &&& MAGNITUDE_MASK) * (y &&& MAGNITUDE_MASK) &&& MAGNITUDE_MASK)
     else (B &&& MAGNITUDE_MASK) * (y &&& MAGNITUDE_MASK) &&& MAGNITUDE_MASK) =
    (if (B.testBit 23 ≠ y.testBit 23) ∧ (B % 8388608) * (y % 8388608) ≠ 0 then
       8388608 + (B % 8388608) * (y % 8388608) % 8388608
     else (B % 8388608) * (y % 8388608) % 8388608) := by
  rw [and_sign_bit_eq_testBit, and_sign_bit_eq_testBit, and_mag_mask, and_mag_mask,
    and_mag_mask, and_mag_mask, Nat.shiftRight_eq_div_pow]
  set p := (B % 8388608) * (y % 8388608) with hp
  have hdivlt : p / 2 ^ 23 < 8388608 := by
    have : p ≤ 8388607 * 8388607 :=
      Nat.mul_le_mul (by omega) (by omega)
    norm_num
    omega
  have hdiv : p / 2 ^ 23 % 8388608 = p / 2 ^ 23 := Nat.mod_eq_of_lt hdivlt
  rw [hdiv]
  have hcond : (p / 2 ^ 23 ≠ 0 ∨ p % 8388608 ≠ 0) ↔ p ≠ 0 := by
    norm_num
    omega
  simp only [Bool.and_eq_true, Bool.or_eq_true, bne_iff_ne, ne_eq, hcond]
  split
  · rw [sign_bit_or_eq_add (show p % 8388608 < 8388608 from Nat.mod_lt _ (by norm_num))]
  · rfl

theorem ddp24_step_body_mpy (recur : ddp24_t → Option (ddp24_t × Nat)) (s : ddp24_t)
    (h0 : s.halted = false)
    (h1 : decode_opcode (fetched s) = OP_MPY) :
    ddp24_step_body recur s =
      some ({ s with
              PC := (s.PC + 1) &&& ADDR_MASK
              A := if (s.B.testBit 23 ≠ (step_operand s).testBit 23) ∧
                      (s.B % 8388608) * (step_operand s % 8388608) ≠ 0 then
                     8388608 + (s.B % 8388608) * (step_operand s % 8388608) / 8388608
                   else (s.B % 8388608) * (step_operand s % 8388608) / 8388608
              B := if (s.B.testBit 23 ≠ (step_operand s).testBit 23) ∧
                      (s.B % 8388608) * (step_operand s % 8388608) ≠ 0 then
                     8388608 + (s.B % 8388608) * (step_operand s % 8388608) % 8388608
                   else (s.B % 8388608) * (step_operand s % 8388608) % 8388608
              cycles := (s.cycles + 28) % 0x10000000000000000 }, 28) := by
  rw [fetched] at h1
  rw [ddp24_step_body]
  simp only [h0, Bool.false_eq_true, if_false, h1, eq_self_iff_true, if_true,
    Nat.reduceEqDiff,
    OP_HLT, OP_NOP, OP_LDA, OP_LDB, OP_STA, OP_STB, OP_ADD, OP_SUB, OP_MPY, OP_DIV,
    OP_ANA, OP_ORA, OP_ERA, OP_JMP, OP_JPL, OP_JMI, OP_JZE, OP_JNZ, OP_JSL, OP_SKG,
    OP_SKN, OP_TAB, OP_IAB, OP_LDX, OP_SIX, OP_ARS, OP_ALS, OP_XEC, step_finish,
    step_operand, step_ea, step_cpu1, fetched]
  rw [mpy_A_value, mpy_B_value]

/-- Claim C8: MPY forms the unsigned product of the two 23-bit operand
magnitudes, puts its high 23 bits into A and its low 23 bits into B, and
sets the sign bit of both A and B to the XOR of the operand sign bits
exactly when the product is non-zero; a zero product gives positive zero
in both.  28 cycles. -/
theorem mpy_product_split_and_sign (fuel : Nat) (s : ddp24_t)
    (h0 : s.halted = false)
    (h1 : decode_opcode (fetched s) = OP_MPY) :
    ddp24_step fuel s =
      some ({ s with
              PC := (s.PC + 1) &&& ADDR_MASK
              A := if (s.B.testBit 23 ≠ (step_operand s).testBit 23) ∧
                      (s.B % 8388608) * (step_operand s % 8388608) ≠ 0 then
                     8388608 + (s.B % 8388608) * (step_operand s % 8388608) / 8388608
                   else (s.B % 8388608) * (step_operand s % 8388608) / 8388608
              B := if (s.B.testBit 23 ≠ (step_operand s).testBit 23) ∧
                      (s.B % 8388608) * (step_operand s % 8388608) ≠ 0 then
                     8388608 + (s.B % 8388608) * (step_operand s % 8388608) % 8388608
                   else (s.B % 8388608) * (step_operand s % 8388608) % 8388608
              cycles := (s.cycles + 28) % 0x10000000000000000 }, 28) := by
  cases fuel with
  | zero => exact ddp24_step_body_mpy _ s h0 h1
  | succ f => exact ddp24_step_body_mpy _ s h0 h1

/-- Witness for C8: `5 * 0x700000 = 0x2300000`; the high 23 bits are 4,
the low 23 bits `0x300000`, and both halves carry the negative sign. -/
theorem mpy_product_split_and_sign_witness :
    ddp24_step 0 sMpy =
      some ({ sMpy with
              PC := 1
              A := 8388612
              B := 11534336
              cycles := 28 }, 28) :=
  mpy_product_split_and_sign 0 sMpy rfl rfl

/-! ### XEC behaviour (claims C2, C3, C4) -/

/-- Claim C2 is refuted by the code: dispatching `XEC` with effective
address 10 does not execute the instruction word stored at address 10
(an HLT, which would leave the machine halted with PC = 10); the
implementation pre-increments PC to `ea + 1` before re-dispatching, so
the recursive step fetches from address 11 (a NOP) and the machine ends
not halted with PC = 12. -/
theorem xec_executes_successor_of_effective_address :
    step_ea sXEC = 10 ∧
    decode_opcode (ddp24_read sXEC 10) = OP_HLT ∧
    (ddp24_step 1 sXEC).map (fun p => (p.1.halted, p.1.PC, p.2)) =
      some (false, 12, 10) :=
  ⟨rfl, rfl, rfl⟩

/-- Claim C3 is refuted by the code: the XEC recursion in `ddp24_step`
has no depth bound and no halt-on-overflow check, so on the
self-referential chain `sLoop` the recursion never terminates — for
every recursion depth the step has still not returned. -/
theorem xec_self_chain_never_terminates :
    ∀ fuel, ddp24_step fuel sLoop = none := by
  intro fuel
  induction fuel with
  | zero => rfl
  | succ f ih =>
    have h : ddp24_step (f + 1) sLoop =
        step_finish (match ddp24_step f sLoop with
                     | none => none
                     | some (cpu2, c) => some (cpu2, 5 + c)) := rfl
    rw [ih] at h
    exact h

/-- Claim C4 is refuted by the code on XEC: the recursive step adds the
inner instruction's cost (5) to the counter and returns it, and the
outer activation then adds `5 + 5 = 10` again, so the counter increases
by 15 while the step returns 10. -/
theorem xec_step_return_ne_cycles_increase :
    sCyc.cycles = 0 ∧
    (ddp24_step 1 sCyc).map (fun p => (p.1.cycles, p.2)) = some (15, 10) :=
  ⟨rfl, rfl⟩
theorem mag_lt_word (x : Nat) : x &&& MAGNITUDE_MASK < 16777216 :=
  (and_mag_mask_lt x).trans (by norm_num)

theorem sign_and_or_lt (A x : Nat) (hx : x < 8388608) :
    (A &&& SIGN_BIT) ||| x < 16777216 := by
  have h1 : A &&& SIGN_BIT ≤ SIGN_BIT := Nat.and_le_right
  have h2 : A &&& SIGN_BIT < 2 ^ 24 := by rw [SIGN_BIT] at h1 ⊢; norm_num; omega
  have h3 : x < 2 ^ 24 := by norm_num; omega
  have := Nat.or_lt_two_pow h2 h3
  norm_num at this
  exact this

theorem ars_shift_lt (A c : Nat) : (A &&& MAGNITUDE_MASK) >>> c < 8388608 := by
  have h1 := and_mag_mask_lt A
  have h2 : (A &&& MAGNITUDE_MASK) >>> c ≤ A &&& MAGNITUDE_MASK := by
    rw [Nat.shiftRight_eq_div_pow]
    exact Nat.div_le_self _ _
  omega

theorem update_mem_lt {mem : Nat → Nat} (hM : ∀ i, i < MEM_SIZE → mem i < 16777216)
    (a v : Nat) :
    ∀ i, i < MEM_SIZE →
      Function.update mem (a &&& (MEM_SIZE - 1)) (v &&& WORD_MASK) i < 16777216 := by
  intro i hi
  rw [Function.update_apply]
  split
  · exact and_word_mask_lt _
  · exact hM i hi

theorem shl23_or_eq_add (a b : Nat) (hb : b < 8388608) :
    (a <<< 23) ||| b = 8388608 * a + b := by
  rw [Nat.shiftLeft_eq, Nat.mul_comm]
  have h := (Nat.mul_add_lt_is_or (b := b) (i := 23) (by omega) a).symm
  norm_num at h ⊢
  exact h

theorem div_quot_bound (A B y : Nat) (h : A &&& MAGNITUDE_MASK < y &&& MAGNITUDE_MASK) :
    (((A &&& MAGNITUDE_MASK) <<< 23 ||| (B &&& MAGNITUDE_MASK)) / (y &&& MAGNITUDE_MASK)) %
      4294967296 < 8388608 := by
  have hB := and_mag_mask_lt B
  have hy := and_mag_mask_lt y
  rw [shl23_or_eq_add _ _ hB]
  have hd : 8388608 * (A &&& MAGNITUDE_MASK) + (B &&& MAGNITUDE_MASK) <
      (y &&& MAGNITUDE_MASK) * 8388608 := by omega
  have h2 := Nat.div_lt_of_lt_mul hd
  exact lt_of_le_of_lt (Nat.mod_le _ _) h2

theorem div_rem_bound (A B y : Nat) (h : A &&& MAGNITUDE_MASK < y &&& MAGNITUDE_MASK) :
    (((A &&& MAGNITUDE_MASK) <<< 23 ||| (B &&& MAGNITUDE_MASK)) % (y &&& MAGNITUDE_MASK)) %
      4294967296 < 8388608 := by
  have hy := and_mag_mask_lt y
  have hv : 0 < y &&& MAGNITUDE_MASK := by omega
  have h2 := Nat.mod_lt ((A &&& MAGNITUDE_MASK) <<< 23 ||| (B &&& MAGNITUDE_MASK)) hv
  exact lt_of_le_of_lt (Nat.mod_le _ _) (h2.trans hy)

theorem MachInv_cycles (t : ddp24_t) (x : Nat) (h : MachInv t) :
    MachInv { t with cycles := x } := h

theorem step_finish_some {r : Option (ddp24_t × Nat)} {s' : ddp24_t} {c : Nat}
    (h : step_finish r = some (s', c)) :
    ∃ cpu2, r = some (cpu2, c) ∧
      s' = { cpu2 with cycles := (cpu2.cycles + c) % 0x10000000000000000 } := by
  cases r with
  | none => simp [step_finish] at h
  | some p =>
    obtain ⟨cpu2, cyc⟩ := p
    simp only [step_finish, Option.some.injEq, Prod.mk.injEq] at h
    obtain ⟨h1, h2⟩ := h
    subst h2
    exact ⟨cpu2, rfl, h1.symm⟩

/-- One `ddp24_step` activation preserves the machine-width invariant,
provided the recursive XEC call does. -/
theorem ddp24_step_body_inv (recur : ddp24_t → Option (ddp24_t × Nat))
    (hrec : ∀ t t' c, MachInv t → recur t = some (t', c) → MachInv t')
    (s s' : ddp24_t) (c : Nat) (hInv : MachInv s)
    (hs : ddp24_step_body recur s = some (s', c)) : MachInv s' := by
  obtain ⟨hA, hB, hM, hPC, hX0, hX1, hX2, hX3⟩ := hInv
  by_cases h0 : s.halted = true
  · rw [ddp24_step_body_halted recur s h0] at hs
    simp only [Option.some.injEq, Prod.mk.injEq] at hs
    obtain ⟨h1, -⟩ := hs
    exact h1 ▸ ⟨hA, hB, hM, hPC, hX0, hX1, hX2, hX3⟩
  · have h0 : s.halted = false := by
      cases hh : s.halted
      · rfl
      · exact absurd hh h0
    by_cases hop : decode_opcode (ddp24_read s s.PC) ∈ implemented_opcodes
    · simp only [implemented_opcodes, List.mem_cons, List.not_mem_nil, or_false] at hop
      rcases hop with h | h | h | h | h | h | h | h | h | h | h | h | h | h | h | h | h | h | h | h | h | h | h | h | h | h | h | h
      all_goals
        rw [ddp24_step_body] at hs
        simp only [h0, Bool.false_eq_true, if_false, h, eq_self_iff_true, if_true,
          Nat.reduceEqDiff,
          OP_HLT, OP_NOP, OP_LDA, OP_LDB, OP_STA, OP_STB, OP_ADD, OP_SUB, OP_MPY, OP_DIV,
          OP_ANA, OP_ORA, OP_ERA, OP_JMP, OP_JPL, OP_JMI, OP_JZE, OP_JNZ, OP_JSL, OP_SKG,
          OP_SKN, OP_TAB, OP_IAB, OP_LDX, OP_SIX, OP_ARS, OP_ALS, OP_XEC, ge_iff_le] at hs
        obtain ⟨cpu2, heq, rfl⟩ := step_finish_some hs
        refine MachInv_cycles _ _ ?_
        repeat' split at heq
        all_goals
          first
          | exact Option.noConfusion heq
          | (rename_i cpu2' c' hq2
             simp only [Option.some.injEq, Prod.mk.injEq] at heq
             obtain ⟨h2, -⟩ := heq
             subst h2
             refine hrec _ _ _ ?_ hq2
             exact ⟨hA, hB, hM, and_addr_mask_lt _, hX0, hX1, hX2, hX3⟩)
          | (simp only [Option.some.injEq, Prod.mk.injEq] at heq
             obtain ⟨h2, -⟩ := heq
             subst h2
             refine ⟨?_, ?_, ?_, ?_, ?_, ?_, ?_, ?_⟩
             · first
               | exact ddp24_read_lt _ _
               | exact from_signed_lt _
               | exact and_word_mask_lt _
               | exact sign_or_mag_lt (and_mag_mask_lt _)
               | exact mag_lt_word _
               | exact sign_and_or_lt _ _ (and_mag_mask_lt _)
               | exact sign_and_or_lt _ _ (ars_shift_lt _ _)
               | exact sign_or_mag_lt (div_rem_bound _ _ _ (by omega))
               | exact (div_rem_bound _ _ _ (by omega)).trans (by norm_num)
               | assumption
             · first
               | exact ddp24_read_lt _ _
               | exact sign_or_mag_lt (and_mag_mask_lt _)
               | exact mag_lt_word _
               | exact sign_or_mag_lt (div_quot_bound _ _ _ (by omega))
               | exact (div_quot_bound _ _ _ (by omega)).trans (by norm_num)
               | assumption
             · first
               | exact hM
               | exact update_mem_lt hM _ _
             · first
               | exact and_addr_mask_lt _
               | exact effective_address_lt _ _
               | assumption
             · first
               | exact hX0
               | (simp only [Function.update_apply]
                  split <;> first | omega | exact hX0)
             · first
               | assumption
               | (simp only [Function.update_apply]
                  split <;> first | exact and_addr_mask_lt _ | assumption)
             · first
               | assumption
               | (simp only [Function.update_apply]
                  split <;> first | exact and_addr_mask_lt _ | assumption)
             · first
               | assumption
               | (simp only [Function.update_apply]
                  split <;> first | exact and_addr_mask_lt _ | assumption))
    · rw [ddp24_step_body_unimpl recur s h0 hop] at hs
      simp only [Option.some.injEq, Prod.mk.injEq] at hs
      obtain ⟨h1, -⟩ := hs
      subst h1
      exact ⟨hA, hB, hM, and_addr_mask_lt _, hX0, hX1, hX2, hX3⟩

/-- `ddp24_step` preserves the machine-width invariant for every XEC
recursion depth. -/
theorem ddp24_step_inv (fuel : Nat) :
    ∀ (s s' : ddp24_t) (c : Nat), MachInv s → ddp24_step fuel s = some (s', c) →
      MachInv s' := by
  induction fuel with
  | zero =>
    intro s s' c h hs
    refine ddp24_step_body_inv _ ?_ s s' c h hs
    intro t t' c' _ habs
    exact Option.noConfusion habs
  | succ f ih =>
    intro s s' c h hs
    exact ddp24_step_body_inv _ (fun t t' c' ht hr => ih t t' c' ht hr) s s' c h hs

/-- Claim C1: every state reachable from a freshly constructed processor
through reset, memory writes and terminating steps keeps `A`, `B` and
every memory word within 24 bits, `PC` and `X[1..3]` within 15 bits, and
`X[0]` equal to zero (no operation ever mutates `X[0]`; memory reads do
not change the state at all in this model). -/
theorem reachable_states_satisfy_mach_inv (s : ddp24_t) (h : ddp24_reachable s) :
    MachInv s := by
  induction h with
  | init => exact MachInv_init
  | reset t _ ih => exact MachInv_reset t ih
  | write t a v _ ih => exact MachInv_write t a v ih
  | step t t' fuel c _ hstep ih => exact ddp24_step_inv fuel t t' c ih hstep

/-- Witness for C1: the invariant holds of the state reached by stepping
the fresh processor once (executing the HLT at address 0). -/
theorem reachable_states_satisfy_mach_inv_witness :
    MachInv { ddp24_init with halted := true, cycles := 5 } :=
  reachable_states_satisfy_mach_inv _
    (ddp24_reachable.step ddp24_init { ddp24_init with halted := true, cycles := 5 } 0 5
      ddp24_reachable.init rfl)
